import Mathlib

set_option maxHeartbeats 1000000

/-!
Verification development for the sculptecturer evaluation and versioning
engine.  The definitions below are a shallow embedding of the TypeScript
source: the entity model of `src/constants.ts` (types section), the rule
evaluation engine and the four mutation handlers of the main application
module, and the comparison logic of `src/components/ComparisonView.tsx`.
-/

/-! ## Entity model (types section of src/constants.ts) -/

inductive ServiceType where
  | DATABASE
  | API
  | QUEUE
  | AUTH
deriving DecidableEq, Repr

inductive ValidationStatus where
  | VALIDATED
  | UNCERTAIN
  | CONFLICT
deriving DecidableEq, Repr

inductive RuleStatus where
  | SATISFIED
  | VIOLATED
  | NOT_EVALUABLE
deriving DecidableEq, Repr

/-- The severity union type of `Rule` (CRITICAL or WARNING). -/
inductive Severity where
  | CRITICAL
  | WARNING
deriving DecidableEq, Repr

structure Rule where
  id : String
  description : String
  severity : Severity
  matcher : String
deriving DecidableEq, Repr

structure EvaluatedRule where
  id : String
  description : String
  severity : Severity
  matcher : String
  status : RuleStatus
  matchingServices : List String
deriving DecidableEq, Repr

structure ExternalService where
  id : String
  name : String
  type : ServiceType
  contractMetrics : List String
  isExperimental : Bool
  evaluationStatus : ValidationStatus
deriving DecidableEq, Repr

structure ContainerVersion where
  id : String
  versionLabel : String
  hypothesis : String
  activeRules : List Rule
deriving DecidableEq, Repr

structure Arrangement where
  id : String
  name : String
  container : ContainerVersion
  services : List ExternalService
  parentId : Option String := none
  createdAt : Nat
deriving DecidableEq, Repr

/-! ## String containment (JavaScript `toLowerCase` / `includes`) -/

/-- A character list check mirroring `needle.isPrefixOf haystack` for the
JavaScript string model: the needle occurs at the very start. -/
def startsWithChars : List Char → List Char → Bool
  | [], _ => true
  | _ :: _, [] => false
  | a :: as, b :: bs => a == b && startsWithChars as bs

/-- A character list check mirroring JavaScript `haystack.includes(needle)`:
the needle occurs contiguously somewhere in the haystack. -/
def containsChars (needle : List Char) : List Char → Bool
  | [] => needle.isEmpty
  | c :: rest => startsWithChars needle (c :: rest) || containsChars needle rest

/-- The value `s.toLowerCase()` viewed as a character list. -/
def lowerStr (s : String) : List Char :=
  s.data.map Char.toLower

/-- The test `haystack.toLowerCase().includes(needle.toLowerCase())` as used
on line 31 of the main module. -/
def containsSub (haystack needle : String) : Bool :=
  containsChars (lowerStr needle) (lowerStr haystack)

/-! ## Rule evaluation engine (`evaluateRule`, `getEvaluatedRules`) -/

/-- The relevance test of `evaluateRule`:
`s.contractMetrics.some(metric => metric.toLowerCase().includes(rule.matcher.toLowerCase()))`. -/
def isRelevant (rule : Rule) (s : ExternalService) : Bool :=
  s.contractMetrics.any (fun metric => containsSub metric rule.matcher)

/-- Function `evaluateRule` from the main module (lines 28-58). -/
def evaluateRule (rule : Rule) (services : List ExternalService) : EvaluatedRule :=
  let relevantServices := services.filter (fun s => isRelevant rule s)
  let status : RuleStatus :=
    if relevantServices.length = 0 then
      if rule.severity = Severity.CRITICAL then RuleStatus.VIOLATED
      else RuleStatus.NOT_EVALUABLE
    else
      let hasConflict := relevantServices.any
        (fun s => decide (s.evaluationStatus = ValidationStatus.CONFLICT))
      let hasUncertainty := relevantServices.any
        (fun s => decide (s.evaluationStatus = ValidationStatus.UNCERTAIN))
      if hasConflict then RuleStatus.VIOLATED
      else if hasUncertainty then RuleStatus.NOT_EVALUABLE
      else RuleStatus.SATISFIED
  { id := rule.id
    description := rule.description
    severity := rule.severity
    matcher := rule.matcher
    status := status
    matchingServices := relevantServices.map (fun s => s.name) }

/-- Function `getEvaluatedRules` from the main module (lines 60-62). -/
def getEvaluatedRules (arrangement : Arrangement) : List EvaluatedRule :=
  arrangement.container.activeRules.map
    (fun rule => evaluateRule rule arrangement.services)

/-! ## Substring characterisation lemmas -/

theorem startsWithChars_iff (n h : List Char) :
    startsWithChars n h = true ↔ ∃ r, n ++ r = h := by
  induction n generalizing h with
  | nil =>
    simp [startsWithChars]
  | cons a as ih =>
    cases h with
    | nil => simp [startsWithChars]
    | cons b bs =>
      simp only [startsWithChars, Bool.and_eq_true, beq_iff_eq, ih]
      constructor
      · rintro ⟨rfl, r, rfl⟩
        exact ⟨r, rfl⟩
      · rintro ⟨r, hr⟩
        injection hr with h1 h2
        exact ⟨h1, r, h2⟩

theorem containsChars_iff (n h : List Char) :
    containsChars n h = true ↔ ∃ l r, l ++ n ++ r = h := by
  induction h with
  | nil =>
    simp only [containsChars, List.isEmpty_iff]
    constructor
    · rintro rfl
      exact ⟨[], [], rfl⟩
    · rintro ⟨l, r, hr⟩
      simpa using List.append_eq_nil.mp ((List.append_eq_nil.mp hr).1) |>.2
  | cons c rest ih =>
    simp only [containsChars, Bool.or_eq_true, startsWithChars_iff, ih]
    constructor
    · rintro (⟨r, hr⟩ | ⟨l, r, hr⟩)
      · exact ⟨[], r, by simpa using hr⟩
      · exact ⟨c :: l, r, by simp [hr]⟩
    · rintro ⟨l, r, hr⟩
      cases l with
      | nil =>
        exact Or.inl ⟨r, by simpa using hr⟩
      | cons x xs =>
        injection hr with h1 h2
        exact Or.inr ⟨xs, r, h2⟩

theorem containsSub_iff (haystack needle : String) :
    containsSub haystack needle = true ↔
      ∃ l r, l ++ lowerStr needle ++ r = lowerStr haystack :=
  containsChars_iff _ _

/-! ## Version graph manager (the four mutation handlers of the main module) -/

/-- The per-service value clone written `{ ...s }` in the source
(fork line 92, toggle line 120). -/
def cloneService (s : ExternalService) : ExternalService :=
  { id := s.id
    name := s.name
    type := s.type
    contractMetrics := s.contractMetrics
    isExperimental := s.isExperimental
    evaluationStatus := s.evaluationStatus }

/-- The placeholder hypothesis installed on a fork (line 97). -/
def forkHypothesis : String :=
  "Exploratory fork to test new boundary conditions."

/-- Handler `handleFork` (lines 85-104).  The three `Date.now()` readings of the
handler are modelled by the single clock argument `now`; the dereference of
`arrangements.find(a => a.id === activeArrangementId)!` on a missing active
id, which throws at runtime, is modelled by `none`.  On success the result
carries the new collection together with the new active arrangement id
(`setActiveArrangementId(newId)`). -/
def handleFork (arrs : List Arrangement) (activeId : String) (now : Nat) :
    Option (List Arrangement × String) :=
  match arrs.find? (fun a => decide (a.id = activeId)) with
  | none => none
  | some src =>
    let newId := "arr-" ++ toString now
    let fork : Arrangement :=
      { id := newId
        name := src.name ++ " (Fork)"
        services := src.services.map cloneService
        container :=
          { id := "cont-" ++ toString now
            versionLabel := src.container.versionLabel ++ ".1"
            hypothesis := forkHypothesis
            activeRules := src.container.activeRules }
        parentId := some src.id
        createdAt := now }
    some (arrs ++ [fork], newId)

/-- Handler `handleToggleService` (lines 106-126).  The module-level catalog
`MOCK_SERVICES` is passed explicitly as `catalog`. -/
def handleToggleService (catalog : List ExternalService)
    (arrs : List Arrangement) (activeId serviceId : String) : List Arrangement :=
  arrs.map (fun arr =>
    if arr.id = activeId then
      match arr.services.find? (fun s => decide (s.id = serviceId)) with
      | some _ =>
        { arr with services := arr.services.filter (fun s => decide (s.id ≠ serviceId)) }
      | none =>
        match catalog.find? (fun s => decide (s.id = serviceId)) with
        | none => arr
        | some svcTemplate =>
          { arr with services := arr.services ++ [cloneService svcTemplate] }
    else arr)

/-- Handler `handleUpdateHypothesis` (lines 128-136). -/
def handleUpdateHypothesis (arrs : List Arrangement) (activeId text : String) :
    List Arrangement :=
  arrs.map (fun arr =>
    if arr.id = activeId then
      { arr with container := { arr.container with hypothesis := text } }
    else arr)

/-- The status advance of `handleCycleStatus` (lines 145-149):
`nextStatus` defaults to VALIDATED, VALIDATED maps to CONFLICT and
CONFLICT maps to UNCERTAIN. -/
def cycleStatus : ValidationStatus → ValidationStatus
  | ValidationStatus.VALIDATED => ValidationStatus.CONFLICT
  | ValidationStatus.CONFLICT => ValidationStatus.UNCERTAIN
  | ValidationStatus.UNCERTAIN => ValidationStatus.VALIDATED

/-- Handler `handleCycleStatus` (lines 138-154). -/
def handleCycleStatus (arrs : List Arrangement) (activeId serviceId : String) :
    List Arrangement :=
  arrs.map (fun arr =>
    if arr.id = activeId then
      { arr with services := arr.services.map (fun s =>
          if s.id = serviceId then
            { s with evaluationStatus := cycleStatus s.evaluationStatus }
          else s) }
    else arr)

/-! ## Comparison engine (src/components/ComparisonView.tsx) -/

structure ServiceDiff where
  uniqueA : List ExternalService
  uniqueB : List ExternalService
  common : List ExternalService
deriving DecidableEq, Repr

/-- Function `getServiceDiff` (ComparisonView lines 22-33); `Set.has` on the id sets
is list membership of the id. -/
def getServiceDiff (arrangementA : Arrangement) (arrangementB : Option Arrangement) :
    ServiceDiff :=
  match arrangementB with
  | none => { uniqueA := [], uniqueB := [], common := [] }
  | some b =>
    let setA := arrangementA.services.map (fun s => s.id)
    let setB := b.services.map (fun s => s.id)
    { uniqueA := arrangementA.services.filter (fun s => decide (¬ s.id ∈ setB))
      uniqueB := b.services.filter (fun s => decide (¬ s.id ∈ setA))
      common := arrangementA.services.filter (fun s => decide (s.id ∈ setB)) }

structure ComparisonResult where
  uniqueA : List ExternalService
  uniqueB : List ExternalService
  common : List ExternalService
  rulesA : List EvaluatedRule
  rulesB : List EvaluatedRule
deriving DecidableEq, Repr

/-- The comparison engine assembled from ComparisonView: the service diff
(lines 22-35) plus `rulesA` (lines 38-40, computed from A unconditionally)
and `rulesB` (lines 43-46, empty when B is unset). -/
def compareArrangements (arrangementA : Arrangement)
    (arrangementB : Option Arrangement) : ComparisonResult :=
  let d := getServiceDiff arrangementA arrangementB
  { uniqueA := d.uniqueA
    uniqueB := d.uniqueB
    common := d.common
    rulesA := arrangementA.container.activeRules.map
      (fun r => evaluateRule r arrangementA.services)
    rulesB :=
      match arrangementB with
      | none => []
      | some b => b.container.activeRules.map (fun r => evaluateRule r b.services) }


/-! ## Small helper lemmas -/

theorem containsChars_nil_needle (h : List Char) : containsChars [] h = true := by
  cases h with
  | nil => rfl
  | cons c rest => simp [containsChars, startsWithChars]

theorem lowerStr_empty : lowerStr "" = [] := rfl

theorem cloneService_eq (s : ExternalService) : cloneService s = s := rfl

/-! ## Sample data for witnesses -/

def wRule (sev : Severity) (m : String) : Rule :=
  { id := "r", description := "d", severity := sev, matcher := m }

def wService (st : ValidationStatus) (metrics : List String) : ExternalService :=
  { id := "s", name := "Svc", type := ServiceType.DATABASE,
    contractMetrics := metrics, isExperimental := false, evaluationStatus := st }

/-! ## Claim theorems: rule evaluation -/

/-- Claim C1: when the set of relevant services is non-empty, `evaluateRule`
returns VIOLATED if some relevant service is in CONFLICT; otherwise
NOT_EVALUABLE if some relevant service is UNCERTAIN; otherwise (all relevant
services VALIDATED) SATISFIED. -/
theorem evaluateRule_precedence (rule : Rule) (services : List ExternalService)
    (hne : services.filter (fun s => isRelevant rule s) ≠ []) :
    ((∃ s ∈ services.filter (fun s => isRelevant rule s),
        s.evaluationStatus = ValidationStatus.CONFLICT) →
      (evaluateRule rule services).status = RuleStatus.VIOLATED) ∧
    ((∀ s ∈ services.filter (fun s => isRelevant rule s),
        s.evaluationStatus ≠ ValidationStatus.CONFLICT) →
      (∃ s ∈ services.filter (fun s => isRelevant rule s),
        s.evaluationStatus = ValidationStatus.UNCERTAIN) →
      (evaluateRule rule services).status = RuleStatus.NOT_EVALUABLE) ∧
    ((∀ s ∈ services.filter (fun s => isRelevant rule s),
        s.evaluationStatus = ValidationStatus.VALIDATED) →
      (evaluateRule rule services).status = RuleStatus.SATISFIED) := by
  have hlen : ¬ (services.filter (fun s => isRelevant rule s)).length = 0 := by
    simpa [List.length_eq_zero] using hne
  have hs : (evaluateRule rule services).status =
      (if (services.filter (fun s => isRelevant rule s)).length = 0 then
        (if rule.severity = Severity.CRITICAL then RuleStatus.VIOLATED
         else RuleStatus.NOT_EVALUABLE)
      else
        (if (services.filter (fun s => isRelevant rule s)).any
            (fun s => decide (s.evaluationStatus = ValidationStatus.CONFLICT)) then
          RuleStatus.VIOLATED
        else if (services.filter (fun s => isRelevant rule s)).any
            (fun s => decide (s.evaluationStatus = ValidationStatus.UNCERTAIN)) then
          RuleStatus.NOT_EVALUABLE
        else RuleStatus.SATISFIED)) := rfl
  rw [hs, if_neg hlen]
  refine ⟨?_, ?_, ?_⟩
  · rintro ⟨s, hmem, hconf⟩
    rw [if_pos (List.any_eq_true.mpr ⟨s, hmem, by simp [hconf]⟩)]
  · intro hnc hunc
    obtain ⟨s, hmem, hsu⟩ := hunc
    have h1 : ¬ ((services.filter (fun s => isRelevant rule s)).any
        (fun s => decide (s.evaluationStatus = ValidationStatus.CONFLICT)) = true) := by
      simp only [List.any_eq_true, decide_eq_true_eq, not_exists, not_and]
      exact hnc
    rw [if_neg h1, if_pos (List.any_eq_true.mpr ⟨s, hmem, by simp [hsu]⟩)]
  · intro hall
    have h1 : ¬ ((services.filter (fun s => isRelevant rule s)).any
        (fun s => decide (s.evaluationStatus = ValidationStatus.CONFLICT)) = true) := by
      simp only [List.any_eq_true, decide_eq_true_eq, not_exists, not_and]
      intro s hmem hc
      rw [hall s hmem] at hc
      exact absurd hc (by decide)
    have h2 : ¬ ((services.filter (fun s => isRelevant rule s)).any
        (fun s => decide (s.evaluationStatus = ValidationStatus.UNCERTAIN)) = true) := by
      simp only [List.any_eq_true, decide_eq_true_eq, not_exists, not_and]
      intro s hmem hc
      rw [hall s hmem] at hc
      exact absurd hc (by decide)
    rw [if_neg h1, if_neg h2]

theorem evaluateRule_precedence_witness :
    (evaluateRule (wRule Severity.WARNING "dr")
        [wService ValidationStatus.CONFLICT ["dr x"]]).status = RuleStatus.VIOLATED :=
  (evaluateRule_precedence (wRule Severity.WARNING "dr")
      [wService ValidationStatus.CONFLICT ["dr x"]] (by decide)).1 (by decide)

/-- Claim C2: when no service is relevant, `evaluateRule` returns VIOLATED
for a CRITICAL rule and NOT_EVALUABLE for a WARNING rule; in particular for
the empty service sequence. -/
theorem evaluateRule_noRelevant (rule : Rule) (services : List ExternalService)
    (h : services.filter (fun s => isRelevant rule s) = []) :
    ((rule.severity = Severity.CRITICAL →
        (evaluateRule rule services).status = RuleStatus.VIOLATED) ∧
      (rule.severity = Severity.WARNING →
        (evaluateRule rule services).status = RuleStatus.NOT_EVALUABLE)) ∧
    ((rule.severity = Severity.CRITICAL →
        (evaluateRule rule []).status = RuleStatus.VIOLATED) ∧
      (rule.severity = Severity.WARNING →
        (evaluateRule rule []).status = RuleStatus.NOT_EVALUABLE)) := by
  have hgen : ∀ (ss : List ExternalService),
      ss.filter (fun s => isRelevant rule s) = [] →
      ((rule.severity = Severity.CRITICAL →
          (evaluateRule rule ss).status = RuleStatus.VIOLATED) ∧
        (rule.severity = Severity.WARNING →
          (evaluateRule rule ss).status = RuleStatus.NOT_EVALUABLE)) := by
    intro ss hss
    have hs : (evaluateRule rule ss).status =
        (if (ss.filter (fun s => isRelevant rule s)).length = 0 then
          (if rule.severity = Severity.CRITICAL then RuleStatus.VIOLATED
           else RuleStatus.NOT_EVALUABLE)
        else
          (if (ss.filter (fun s => isRelevant rule s)).any
              (fun s => decide (s.evaluationStatus = ValidationStatus.CONFLICT)) then
            RuleStatus.VIOLATED
          else if (ss.filter (fun s => isRelevant rule s)).any
              (fun s => decide (s.evaluationStatus = ValidationStatus.UNCERTAIN)) then
            RuleStatus.NOT_EVALUABLE
          else RuleStatus.SATISFIED)) := rfl
    rw [hs, if_pos (by simp [hss])]
    constructor
    · intro hcrit
      rw [if_pos hcrit]
    · intro hwarn
      rw [if_neg (by rw [hwarn]; exact fun hc => Severity.noConfusion hc)]
  exact ⟨hgen services h, hgen [] rfl⟩

theorem evaluateRule_noRelevant_witness :
    (evaluateRule (wRule Severity.CRITICAL "zz")
        [wService ValidationStatus.VALIDATED ["dr"]]).status = RuleStatus.VIOLATED :=
  ((evaluateRule_noRelevant (wRule Severity.CRITICAL "zz")
      [wService ValidationStatus.VALIDATED ["dr"]] (by decide)).1).1 rfl

/-- Claim C3: a service is relevant exactly when some entry of its
`contractMetrics` contains the rule's matcher as a case-insensitive
substring, and `matchingServices` is the names of the relevant services in
the same relative order as the input sequence. -/
theorem evaluateRule_relevance (rule : Rule) (services : List ExternalService) :
    (∀ s ∈ services,
      (isRelevant rule s = true ↔
        ∃ m ∈ s.contractMetrics,
          ∃ l r, l ++ lowerStr rule.matcher ++ r = lowerStr m)) ∧
    (evaluateRule rule services).matchingServices
      = (services.filter (fun s => isRelevant rule s)).map (fun s => s.name) ∧
    List.Sublist ((evaluateRule rule services).matchingServices)
      (services.map (fun s => s.name)) := by
  refine ⟨?_, rfl, ?_⟩
  · intro s _
    simp only [isRelevant, List.any_eq_true, containsSub_iff]
  · have hm : (evaluateRule rule services).matchingServices
        = (services.filter (fun s => isRelevant rule s)).map (fun s => s.name) := rfl
    rw [hm]
    exact (List.filter_sublist services).map (fun s => s.name)

theorem evaluateRule_relevance_witness :
    isRelevant (wRule Severity.WARNING "DR") (wService ValidationStatus.VALIDATED ["dr x"]) = true :=
  ((evaluateRule_relevance (wRule Severity.WARNING "DR")
      [wService ValidationStatus.VALIDATED ["dr x"]]).1
    (wService ValidationStatus.VALIDATED ["dr x"]) (by decide)).mpr
    ⟨"dr x", by decide, [], [' ', 'x'], by decide⟩

/-- Claim C10: with an empty matcher, exactly the services with a non-empty
`contractMetrics` sequence are relevant, and a service with an empty
`contractMetrics` sequence is never relevant for any matcher. -/
theorem evaluateRule_emptyMatcher (rule : Rule) (services : List ExternalService)
    (hm : rule.matcher = "") :
    (evaluateRule rule services).matchingServices
      = (services.filter (fun s => !s.contractMetrics.isEmpty)).map (fun s => s.name) ∧
    (∀ s ∈ services, (isRelevant rule s = true ↔ s.contractMetrics ≠ [])) ∧
    (∀ (r : Rule) (s : ExternalService),
      s.contractMetrics = [] → isRelevant r s = false) := by
  have hpt : ∀ s ∈ services, isRelevant rule s = !s.contractMetrics.isEmpty := by
    intro s _
    cases hmet : s.contractMetrics with
    | nil => simp [isRelevant, hmet]
    | cons m ms =>
      simp [isRelevant, hmet, hm, containsSub, lowerStr_empty, containsChars_nil_needle]
  refine ⟨?_, ?_, ?_⟩
  · have hdef : (evaluateRule rule services).matchingServices
        = (services.filter (fun s => isRelevant rule s)).map (fun s => s.name) := rfl
    rw [hdef, List.filter_congr hpt]
  · intro s hs
    rw [hpt s hs]
    cases hmet : s.contractMetrics with
    | nil => simp [hmet]
    | cons m ms => simp [hmet]
  · intro r s hnil
    simp [isRelevant, hnil]

theorem evaluateRule_emptyMatcher_witness :
    (evaluateRule (wRule Severity.WARNING "")
        [wService ValidationStatus.VALIDATED ["m"],
         wService ValidationStatus.VALIDATED []]).matchingServices = ["Svc"] := by
  have h := (evaluateRule_emptyMatcher (wRule Severity.WARNING "")
      [wService ValidationStatus.VALIDATED ["m"],
       wService ValidationStatus.VALIDATED []] rfl).1
  rw [h]
  decide

/-! ## Helper lemmas for the mutation handlers -/

theorem list_map_eq_self {α : Type} {l : List α} {f : α → α}
    (h : ∀ a ∈ l, f a = a) : l.map f = l := by
  induction l with
  | nil => rfl
  | cons a t ih =>
    rw [List.map_cons, h a (List.mem_cons_self a t),
      ih (fun x hx => h x (List.mem_cons_of_mem a hx))]

theorem handleCycleStatus_append (l₁ l₂ : List Arrangement) (aid sid : String) :
    handleCycleStatus (l₁ ++ l₂) aid sid
      = handleCycleStatus l₁ aid sid ++ handleCycleStatus l₂ aid sid :=
  List.map_append _ _ _

theorem handleCycleStatus_skip (arrs : List Arrangement) (aid sid : String)
    (h : ∀ b ∈ arrs, b.id ≠ aid) : handleCycleStatus arrs aid sid = arrs := by
  unfold handleCycleStatus
  exact list_map_eq_self (fun b hb => if_neg (h b hb))

theorem handleCycleStatus_cons (a : Arrangement) (l : List Arrangement)
    (aid sid : String) :
    handleCycleStatus (a :: l) aid sid
      = (if a.id = aid then
          { a with services := a.services.map (fun s =>
              if s.id = sid then
                { s with evaluationStatus := cycleStatus s.evaluationStatus }
              else s) }
         else a) :: handleCycleStatus l aid sid := rfl

theorem handleToggleService_skip (catalog : List ExternalService)
    (arrs : List Arrangement) (aid sid : String)
    (h : ∀ b ∈ arrs, b.id ≠ aid) :
    handleToggleService catalog arrs aid sid = arrs := by
  unfold handleToggleService
  exact list_map_eq_self (fun b hb => if_neg (h b hb))

def wCont : ContainerVersion :=
  { id := "c", versionLabel := "v1", hypothesis := "h", activeRules := [] }

def wArr (i : String) (svcs : List ExternalService) : Arrangement :=
  { id := i, name := "A", container := wCont, services := svcs,
    parentId := none, createdAt := 0 }

def wSvcId (i : String) : ExternalService :=
  { id := i, name := "Svc", type := ServiceType.DATABASE, contractMetrics := [],
    isExperimental := false, evaluationStatus := ValidationStatus.VALIDATED }

/-! ## Claim theorems: version graph manager -/

/-- Claim C5: the function `cycleStatus` advances along the fixed three-state cycle
(VALIDATED to CONFLICT to UNCERTAIN to VALIDATED), three applications are
the identity, the cycle never leaves the three-state enum, and
`handleCycleStatus` affects exactly the one targeted service of the one
targeted arrangement. -/
theorem cycleStatus_claims (p q : List Arrangement) (a : Arrangement)
    (u v : List ExternalService) (s : ExternalService) (aid sid : String)
    (ha : a.id = aid) (hpq : ∀ b ∈ p ++ q, b.id ≠ aid)
    (hsvc : a.services = u ++ s :: v) (hsid : s.id = sid)
    (huv : ∀ t ∈ u ++ v, t.id ≠ sid) :
    cycleStatus ValidationStatus.VALIDATED = ValidationStatus.CONFLICT ∧
    cycleStatus ValidationStatus.CONFLICT = ValidationStatus.UNCERTAIN ∧
    cycleStatus ValidationStatus.UNCERTAIN = ValidationStatus.VALIDATED ∧
    (∀ st : ValidationStatus, cycleStatus (cycleStatus (cycleStatus st)) = st) ∧
    (∀ st : ValidationStatus,
      cycleStatus st = ValidationStatus.VALIDATED ∨
      cycleStatus st = ValidationStatus.CONFLICT ∨
      cycleStatus st = ValidationStatus.UNCERTAIN) ∧
    handleCycleStatus (p ++ a :: q) aid sid
      = p ++ { a with services :=
          u ++ { s with evaluationStatus := cycleStatus s.evaluationStatus } :: v } :: q := by
  refine ⟨rfl, rfl, rfl, fun st => by cases st <;> rfl,
    fun st => by cases st <;> simp [cycleStatus], ?_⟩
  rw [handleCycleStatus_append, handleCycleStatus_cons,
    handleCycleStatus_skip p aid sid (fun b hb => hpq b (List.mem_append_left q hb)),
    handleCycleStatus_skip q aid sid (fun b hb => hpq b (List.mem_append_right p hb)),
    if_pos ha, hsvc, List.map_append, List.map_cons, if_pos hsid,
    list_map_eq_self (fun t ht => if_neg (huv t (List.mem_append_left v ht))),
    list_map_eq_self (fun t ht => if_neg (huv t (List.mem_append_right u ht)))]

theorem cycleStatus_claims_witness :
    handleCycleStatus [wArr "a" [wSvcId "s"]] "a" "s"
      = [{ wArr "a" [wSvcId "s"] with services :=
          [{ wSvcId "s" with evaluationStatus := ValidationStatus.CONFLICT }] }] :=
  (cycleStatus_claims [] [] (wArr "a" [wSvcId "s"]) [] [] (wSvcId "s") "a" "s"
    rfl (by decide) rfl rfl (by decide)).2.2.2.2.2

/-- Claim C6: the handler `handleToggleService` removes the service when a service with
the given id is present in the target arrangement, adds a clone of the
catalog template when it is absent, leaves the arrangement unchanged when
the id is absent from both the arrangement and the catalog, and never
modifies any other arrangement. -/
theorem toggleService_cases (catalog : List ExternalService)
    (p q : List Arrangement) (a : Arrangement) (aid sid : String)
    (svcTemplate : ExternalService)
    (ha : a.id = aid) (hpq : ∀ b ∈ p ++ q, b.id ≠ aid) :
    ((∃ s ∈ a.services, s.id = sid) →
      handleToggleService catalog (p ++ a :: q) aid sid
        = p ++ { a with services :=
            a.services.filter (fun s => decide (s.id ≠ sid)) } :: q) ∧
    ((∀ s ∈ a.services, s.id ≠ sid) →
      catalog.find? (fun t => decide (t.id = sid)) = some svcTemplate →
      handleToggleService catalog (p ++ a :: q) aid sid
        = p ++ { a with services := a.services ++ [cloneService svcTemplate] } :: q) ∧
    ((∀ s ∈ a.services, s.id ≠ sid) →
      (∀ t ∈ catalog, t.id ≠ sid) →
      handleToggleService catalog (p ++ a :: q) aid sid = p ++ a :: q) := by
  have hps : handleToggleService catalog p aid sid = p :=
    handleToggleService_skip catalog p aid sid
      (fun b hb => hpq b (List.mem_append_left q hb))
  have hqs : handleToggleService catalog q aid sid = q :=
    handleToggleService_skip catalog q aid sid
      (fun b hb => hpq b (List.mem_append_right p hb))
  have hsplit : ∀ body : Arrangement,
      (if a.id = aid then
        match a.services.find? (fun s => decide (s.id = sid)) with
        | some _ =>
          { a with services := a.services.filter (fun s => decide (s.id ≠ sid)) }
        | none =>
          match catalog.find? (fun s => decide (s.id = sid)) with
          | none => a
          | some svcTemplate =>
            { a with services := a.services ++ [cloneService svcTemplate] }
       else a) = body →
      handleToggleService catalog (p ++ a :: q) aid sid = p ++ body :: q := by
    intro body hbody
    show List.map _ (p ++ a :: q) = _
    rw [List.map_append, List.map_cons]
    show handleToggleService catalog p aid sid
        ++ _ :: handleToggleService catalog q aid sid = _
    rw [hps, hqs, hbody]
  refine ⟨?_, ?_, ?_⟩
  · rintro ⟨s, hs, hsid⟩
    have hsome : (a.services.find? (fun s => decide (s.id = sid))).isSome :=
      List.find?_isSome.mpr ⟨s, hs, by simp [hsid]⟩
    obtain ⟨w, hw⟩ := Option.isSome_iff_exists.mp hsome
    apply hsplit
    rw [if_pos ha, hw]
  · intro habs hfind
    have hnone : a.services.find? (fun s => decide (s.id = sid)) = none :=
      List.find?_eq_none.mpr (fun s hs => by simp [habs s hs])
    apply hsplit
    rw [if_pos ha, hnone, hfind]
  · intro habs hcat
    have hnone : a.services.find? (fun s => decide (s.id = sid)) = none :=
      List.find?_eq_none.mpr (fun s hs => by simp [habs s hs])
    have hcnone : catalog.find? (fun s => decide (s.id = sid)) = none :=
      List.find?_eq_none.mpr (fun t ht => by simp [hcat t ht])
    apply hsplit
    rw [if_pos ha, hnone, hcnone]

theorem toggleService_cases_witness :
    handleToggleService [wSvcId "s"] [wArr "a" []] "a" "s"
      = [{ wArr "a" [] with services := [cloneService (wSvcId "s")] }] :=
  (toggleService_cases [wSvcId "s"] [] [] (wArr "a" []) "a" "s" (wSvcId "s")
    rfl (by decide)).2.1 (by decide) (by decide)

/-- Claim C8 (counterexample to the claim as stated): invoking the fork
operation with an arrangement id that matches no arrangement does not return
the input collection unchanged; the source dereferences the failed lookup
(`find(...)!`) and throws, modelled here by `none`. -/
theorem handleFork_missing_fails : handleFork [] "missing" 0 = none := rfl

/-- Claim C8 (amended): the handlers `handleToggleService`, `handleUpdateHypothesis` and
`handleCycleStatus` are no-ops when the arrangement id matches no arrangement
in the collection; `handleFork` instead fails to locate its source and
aborts (returns `none`) rather than returning the input unchanged. -/
theorem missingId_behaviour (catalog : List ExternalService)
    (arrs : List Arrangement) (aid sid text : String) (now : Nat)
    (h : ∀ a ∈ arrs, a.id ≠ aid) :
    handleToggleService catalog arrs aid sid = arrs ∧
    handleUpdateHypothesis arrs aid text = arrs ∧
    handleCycleStatus arrs aid sid = arrs ∧
    handleFork arrs aid now = none := by
  refine ⟨handleToggleService_skip catalog arrs aid sid h, ?_,
    handleCycleStatus_skip arrs aid sid h, ?_⟩
  · unfold handleUpdateHypothesis
    exact list_map_eq_self (fun b hb => if_neg (h b hb))
  · unfold handleFork
    rw [List.find?_eq_none.mpr (fun a ha => by simp [h a ha])]

theorem missingId_behaviour_witness :
    handleToggleService [wSvcId "s"] [wArr "a" []] "zz" "s" = [wArr "a" []] ∧
    handleUpdateHypothesis [wArr "a" []] "zz" "t" = [wArr "a" []] ∧
    handleCycleStatus [wArr "a" []] "zz" "s" = [wArr "a" []] ∧
    handleFork [wArr "a" []] "zz" 0 = none :=
  missingId_behaviour [wSvcId "s"] [wArr "a" []] "zz" "s" "t" 0 (by decide)

def cexArr : Arrangement :=
  { id := "arr-0", name := "A", container := wCont, services := [],
    parentId := none, createdAt := 0 }

def cexFork : Arrangement :=
  { id := "arr-0", name := "A (Fork)",
    container := { id := "cont-0", versionLabel := "v1.1",
                   hypothesis := forkHypothesis, activeRules := [] },
    services := [], parentId := some "arr-0", createdAt := 0 }

/-- Claim C7 (counterexample to the claim as stated): the new arrangement id
is derived from the clock (`arr-` plus the timestamp), so forking a
collection that already holds an arrangement with that id produces a
colliding id, not a fresh one. -/
theorem fork_id_collision :
    handleFork [cexArr] "arr-0" 0 = some ([cexArr, cexFork], cexFork.id) ∧
    cexFork.id = cexArr.id := by
  constructor
  · decide
  · rfl

/-- Claim C7 (amended): provided the timestamp-derived id `arr-` + `now`
does not already occur in the collection, `handleFork` produces a fork with
that (fresh) id, parentId equal to the source's id, a container with id
`cont-` + `now`, the source's versionLabel with `.1` appended and the
placeholder hypothesis, appends the fork to the collection (leaving all
pre-existing arrangements unchanged) and marks it active. -/
theorem fork_spec (arrs : List Arrangement) (activeId : String) (now : Nat)
    (src : Arrangement)
    (hfind : arrs.find? (fun a => decide (a.id = activeId)) = some src)
    (hfresh : ¬ ("arr-" ++ toString now) ∈ arrs.map (fun a => a.id)) :
    ∃ fork : Arrangement,
      handleFork arrs activeId now = some (arrs ++ [fork], fork.id) ∧
      fork.id = "arr-" ++ toString now ∧
      ¬ fork.id ∈ arrs.map (fun a => a.id) ∧
      fork.parentId = some src.id ∧
      fork.name = src.name ++ " (Fork)" ∧
      fork.services = src.services ∧
      fork.container.id = "cont-" ++ toString now ∧
      fork.container.versionLabel = src.container.versionLabel ++ ".1" ∧
      fork.container.hypothesis = forkHypothesis ∧
      fork.container.activeRules = src.container.activeRules ∧
      fork.createdAt = now := by
  refine ⟨{ id := "arr-" ++ toString now
            name := src.name ++ " (Fork)"
            services := src.services.map cloneService
            container :=
              { id := "cont-" ++ toString now
                versionLabel := src.container.versionLabel ++ ".1"
                hypothesis := forkHypothesis
                activeRules := src.container.activeRules }
            parentId := some src.id
            createdAt := now },
    ?_, rfl, hfresh, rfl, rfl, ?_, rfl, rfl, rfl, rfl, rfl⟩
  · unfold handleFork
    rw [hfind]
  · exact list_map_eq_self (fun s _ => rfl)

theorem fork_spec_witness :
    ∃ fork : Arrangement,
      handleFork [wArr "a" []] "a" 5 = some ([wArr "a" []] ++ [fork], fork.id) ∧
      fork.id = "arr-" ++ toString 5 ∧
      ¬ fork.id ∈ [wArr "a" []].map (fun a => a.id) ∧
      fork.parentId = some (wArr "a" []).id ∧
      fork.name = (wArr "a" []).name ++ " (Fork)" ∧
      fork.services = (wArr "a" []).services ∧
      fork.container.id = "cont-" ++ toString 5 ∧
      fork.container.versionLabel = (wArr "a" []).container.versionLabel ++ ".1" ∧
      fork.container.hypothesis = forkHypothesis ∧
      fork.container.activeRules = (wArr "a" []).container.activeRules ∧
      fork.createdAt = 5 :=
  fork_spec [wArr "a" []] "a" 5 (wArr "a" []) (by decide) (by decide)

def wFork5 : Arrangement :=
  { id := "arr-5", name := "A (Fork)",
    container := { id := "cont-5", versionLabel := "v1.1",
                   hypothesis := forkHypothesis, activeRules := [] },
    services := [wSvcId "s"], parentId := some "a", createdAt := 5 }

/-- Claim C4: a fork whose id is fresh shares no observable mutable state
with its parents: the fork's container rules and services are value copies
of the source's, cycling a service status addressed to the fork leaves every
pre-existing arrangement (in particular the parent) unchanged, and cycling a
status addressed to any other arrangement leaves the fork unchanged. -/
theorem fork_isolation (arrs : List Arrangement) (activeId : String) (now : Nat)
    (fork : Arrangement)
    (hfork : handleFork arrs activeId now = some (arrs ++ [fork], fork.id))
    (hfresh : ¬ fork.id ∈ arrs.map (fun a => a.id)) :
    (∃ src : Arrangement,
      arrs.find? (fun a => decide (a.id = activeId)) = some src ∧
      fork.services = src.services ∧
      fork.container.activeRules = src.container.activeRules ∧
      fork.parentId = some src.id) ∧
    (∀ sid : String,
      handleCycleStatus (arrs ++ [fork]) fork.id sid
        = arrs ++ [{ fork with services := fork.services.map (fun s =>
            if s.id = sid then
              { s with evaluationStatus := cycleStatus s.evaluationStatus }
            else s) }]) ∧
    (∀ aid sid : String, aid ≠ fork.id →
      handleCycleStatus (arrs ++ [fork]) aid sid
        = handleCycleStatus arrs aid sid ++ [fork]) := by
  have hskip : ∀ b ∈ arrs, b.id ≠ fork.id := by
    intro b hb heq
    exact hfresh (heq ▸ List.mem_map_of_mem (fun a => a.id) hb)
  refine ⟨?_, ?_, ?_⟩
  · unfold handleFork at hfork
    cases hfind : arrs.find? (fun a => decide (a.id = activeId)) with
    | none =>
      rw [hfind] at hfork
      cases hfork
    | some src =>
      rw [hfind] at hfork
      simp only [Option.some.injEq, Prod.mk.injEq] at hfork
      obtain ⟨h1, -⟩ := hfork
      have h2 := List.append_cancel_left h1
      simp only [List.cons.injEq, and_true] at h2
      subst h2
      exact ⟨src, rfl, list_map_eq_self (fun s _ => rfl), rfl, rfl⟩
  · intro sid
    rw [handleCycleStatus_append,
      handleCycleStatus_skip arrs fork.id sid hskip,
      handleCycleStatus_cons, if_pos rfl]
    rfl
  · intro aid sid haid
    rw [handleCycleStatus_append,
      handleCycleStatus_skip [fork] aid sid
        (fun b hb => by
          rw [List.mem_singleton.mp hb]
          exact fun heq => haid heq.symm)]

theorem fork_isolation_witness :
    handleCycleStatus ([wArr "a" [wSvcId "s"]] ++ [wFork5]) "a" "s"
      = handleCycleStatus [wArr "a" [wSvcId "s"]] "a" "s" ++ [wFork5] :=
  (fork_isolation [wArr "a" [wSvcId "s"]] "a" 5 wFork5
    (by decide) (by decide)).2.2 "a" "s" (by decide)

/-! ## Claim theorems: comparison engine -/

def cexArrR : Arrangement :=
  { id := "a", name := "A",
    container := { id := "c", versionLabel := "v", hypothesis := "h",
                   activeRules := [wRule Severity.WARNING ""] },
    services := [], parentId := none, createdAt := 0 }

/-- Claim C9 (counterexample to the claim as stated): with B unset the
engine still computes A's rule list, so the returned rule lists are not all
empty — here `rulesA` holds the evaluation of A's one active rule. -/
theorem compare_none_rulesA_nonempty :
    (compareArrangements cexArrR none).rulesA ≠ [] := by decide

/-- Claim C9 (amended): the function `compareArrangements` partitions services by id
(`uniqueA` from A absent in B, `uniqueB` symmetric, `common` from A's copy),
the three parts are pairwise disjoint by id, and with B unset it returns
empty diffs and an empty rule list for B while `rulesA` is still A's own
evaluated rules. -/
theorem compare_partition (a b : Arrangement) :
    ((∀ x ∈ (compareArrangements a (some b)).uniqueA,
        ∀ y ∈ (compareArrangements a (some b)).uniqueB, x.id ≠ y.id) ∧
      (∀ x ∈ (compareArrangements a (some b)).uniqueA,
        ∀ y ∈ (compareArrangements a (some b)).common, x.id ≠ y.id) ∧
      (∀ x ∈ (compareArrangements a (some b)).uniqueB,
        ∀ y ∈ (compareArrangements a (some b)).common, x.id ≠ y.id)) ∧
    ((compareArrangements a (some b)).uniqueA
        = a.services.filter
            (fun s => decide (¬ s.id ∈ b.services.map (fun t => t.id))) ∧
      (compareArrangements a (some b)).uniqueB
        = b.services.filter
            (fun s => decide (¬ s.id ∈ a.services.map (fun t => t.id))) ∧
      (compareArrangements a (some b)).common
        = a.services.filter
            (fun s => decide (s.id ∈ b.services.map (fun t => t.id)))) ∧
    (compareArrangements a none
        = { uniqueA := [], uniqueB := [], common := [],
            rulesA := a.container.activeRules.map
              (fun r => evaluateRule r a.services),
            rulesB := [] }) := by
  refine ⟨⟨?_, ?_, ?_⟩, ⟨rfl, rfl, rfl⟩, rfl⟩
  · intro x hx y hy heq
    have hx' : ¬ x.id ∈ b.services.map (fun t => t.id) := by
      have := (List.mem_filter.mp hx).2
      simpa using this
    have hy' : y ∈ b.services := (List.mem_filter.mp hy).1
    exact hx' (heq ▸ List.mem_map_of_mem (fun t => t.id) hy')
  · intro x hx y hy heq
    have hx' : ¬ x.id ∈ b.services.map (fun t => t.id) := by
      have := (List.mem_filter.mp hx).2
      simpa using this
    have hy' : y.id ∈ b.services.map (fun t => t.id) := by
      have := (List.mem_filter.mp hy).2
      simpa using this
    exact hx' (heq ▸ hy')
  · intro x hx y hy heq
    have hx' : ¬ x.id ∈ a.services.map (fun t => t.id) := by
      have := (List.mem_filter.mp hx).2
      simpa using this
    have hy' : y ∈ a.services := (List.mem_filter.mp hy).1
    exact hx' (heq ▸ List.mem_map_of_mem (fun t => t.id) hy')

theorem compare_partition_witness :
    (wSvcId "1").id ≠ (wSvcId "2").id :=
  ((compare_partition (wArr "x" [wSvcId "1"]) (wArr "y" [wSvcId "2"])).1).1
    (wSvcId "1") (by decide) (wSvcId "2") (by decide)

def cexIsoArr : Arrangement :=
  { id := "arr-0", name := "A", container := wCont, services := [wSvcId "s"],
    parentId := none, createdAt := 0 }

def cexIsoFork : Arrangement :=
  { id := "arr-0", name := "A (Fork)",
    container := { id := "cont-0", versionLabel := "v1.1",
                   hypothesis := forkHypothesis, activeRules := [] },
    services := [wSvcId "s"], parentId := some "arr-0", createdAt := 0 }

/-- Claim C4 (counterexample to the claim as stated): when the clock-derived
fork id collides with the parents id (two forks in one clock tick produce
exactly this), cycling a service status addressed to the fork also rewrites
the corresponding service of the parent, because `handleCycleStatus`
addresses arrangements by id.  Here the fork of the parent (id `arr-0`,
forked at clock 0) has id `arr-0` as well, and after the cycle the first
collection entry no longer equals the parent. -/
theorem fork_isolation_collision :
    handleFork [cexIsoArr] "arr-0" 0 = some ([cexIsoArr, cexIsoFork], cexIsoFork.id) ∧
    (handleCycleStatus [cexIsoArr, cexIsoFork] cexIsoFork.id "s").head?
      ≠ some cexIsoArr := by
  constructor
  · decide
  · decide
